import Mathlib

/-!
# Verification of the File Teleporter routing/configuration core

Shallow embedding of `src/file_teleporter_improved.py`. The embedded parts
are the routing engine (`MainWindow.handle_drop`), the history log
(`MainWindow._add_history_entry`), configuration load/normalization
(`ConfigManager.load`, `generate_default_config`) and the
export/import-time normalization of configuration documents.

Modelling conventions:
* The filesystem is an association list from absolute path strings to
  nodes; a directory node abstracts a whole subtree as one opaque payload,
  which is adequate because the code only ever copies, replaces or removes
  whole trees through `shutil.copytree`, `shutil.copy2`, `shutil.rmtree`
  and `os.remove` at single path keys.
* Nondeterministic OS failures (permission errors, disk errors) are
  supplied by an environment `Env` mapping paths to the exception text the
  corresponding call raises; an empty environment is the fault-free run.
* A Python exception aborts the rest of an item body but keeps the
  filesystem mutations already performed; every embedded operation
  therefore returns the filesystem reached so far together with an
  optional exception message.
* `datetime.now()` is abstracted as a monotone `Nat` counter threaded
  through the batch loop; no verified property depends on clock values.
-/

set_option autoImplicit false

namespace FileTeleporter

/-- Operation mode constant `OP_COPY_REPLACE` from the source. -/
def OP_COPY_REPLACE : String := "copy_replace"

/-- Operation mode constant `OP_COPY_NEW` from the source. -/
def OP_COPY_NEW : String := "copy_new"

/-- Operation mode constant `OP_MOVE_REPLACE` from the source. -/
def OP_MOVE_REPLACE : String := "move_replace"

/-- Operation mode constant `OP_MOVE_NEW` from the source. -/
def OP_MOVE_NEW : String := "move_new"

/-- A filesystem node: a file with opaque content, or a directory whose
whole subtree is abstracted as one opaque payload. -/
inductive FsNode where
  | file (data : String)
  | dir (data : String)
deriving DecidableEq

/-- The filesystem: an association list from path to node. -/
def FS : Type := List (String × FsNode)

instance : DecidableEq FS := by
  unfold FS
  infer_instance

/-- Failure environment: for each path, the exception text that a copy
from it (respectively a delete of it) raises; absent paths succeed. -/
structure Env where
  copyFailures : List (String × String)
  deleteFailures : List (String × String)
deriving DecidableEq

/-- Look a path up in the filesystem. -/
def fsLookup (fs : FS) (p : String) : Option FsNode :=
  List.lookup p fs

/-- `os.path.exists`. -/
def pathExists (fs : FS) (p : String) : Bool :=
  (fsLookup fs p).isSome

/-- `os.path.isdir`. -/
def isDir (fs : FS) (p : String) : Bool :=
  match fsLookup fs p with
  | some (FsNode.dir _) => true
  | _ => false

/-- Remove every binding of path `p`. -/
def fsErase (fs : FS) (p : String) : FS :=
  List.filter (fun e => !(e.1 == p)) fs

/-- Bind path `p` to node `n`, overwriting any previous binding. -/
def fsSet (fs : FS) (p : String) (n : FsNode) : FS :=
  (p, n) :: fsErase fs p

/-- Path separator (`os.sep` on POSIX). -/
def pathSep : Char := '/'

/-- `src.rstrip(os.sep)`: drop trailing separators. -/
def rstripSep (s : String) : String :=
  String.mk ((s.data.reverse.dropWhile (fun c => c == pathSep)).reverse)

/-- `os.path.basename`: the component after the last separator. -/
def basename (s : String) : String :=
  String.mk ((s.data.reverse.takeWhile (fun c => !(c == pathSep))).reverse)

/-- `os.path.join` for a single component. -/
def joinPath (a b : String) : String :=
  if b.data.head? = some pathSep then b
  else if a = "" then b
  else if a.data.getLast? = some pathSep then a ++ b
  else a ++ "/" ++ b

/-- `shutil.rmtree p`: fails with the environment text if the delete
oracle names `p`, with `NotADirectoryError` on a file, and with
`FileNotFoundError` on an absent path; otherwise removes the tree. -/
def rmtree (env : Env) (fs : FS) (p : String) : FS × Option String :=
  match List.lookup p env.deleteFailures with
  | some e => (fs, some e)
  | none =>
    match fsLookup fs p with
    | some (FsNode.dir _) => (fsErase fs p, none)
    | some (FsNode.file _) => (fs, some ("NotADirectoryError: " ++ p))
    | none => (fs, some ("FileNotFoundError: " ++ p))

/-- `os.remove p`: fails with the environment text if the delete oracle
names `p`, with `IsADirectoryError` on a directory, and with
`FileNotFoundError` on an absent path; otherwise removes the file. -/
def osRemove (env : Env) (fs : FS) (p : String) : FS × Option String :=
  match List.lookup p env.deleteFailures with
  | some e => (fs, some e)
  | none =>
    match fsLookup fs p with
    | some (FsNode.file _) => (fsErase fs p, none)
    | some (FsNode.dir _) => (fs, some ("IsADirectoryError: " ++ p))
    | none => (fs, some ("FileNotFoundError: " ++ p))

/-- `shutil.copytree src dst`: fails with the environment text if the copy
oracle names `src`, and with `FileExistsError` when `dst` already exists;
otherwise binds `dst` to the tree rooted at `src`. -/
def copytree (env : Env) (fs : FS) (src dst : String) : FS × Option String :=
  match List.lookup src env.copyFailures with
  | some e => (fs, some e)
  | none =>
    if pathExists fs dst then (fs, some ("FileExistsError: " ++ dst))
    else
      match fsLookup fs src with
      | some n => (fsSet fs dst n, none)
      | none => (fs, some ("FileNotFoundError: " ++ src))

/-- `shutil.copy2 src dst`: fails with the environment text if the copy
oracle names `src`; copies into `dst` when `dst` is an existing directory
(as `shutil.copy2` does), otherwise overwrites `dst` in place. -/
def copy2 (env : Env) (fs : FS) (src dst : String) : FS × Option String :=
  match List.lookup src env.copyFailures with
  | some e => (fs, some e)
  | none =>
    match fsLookup fs src with
    | some n =>
      match fsLookup fs dst with
      | some (FsNode.dir _) =>
          (fsSet fs (joinPath dst (basename (rstripSep src))) n, none)
      | _ => (fsSet fs dst n, none)
    | none => (fs, some ("FileNotFoundError: " ++ src))

/-- One history entry, as built by `MainWindow._add_history_entry`.
`datetime.now()` is abstracted as a `Nat` logical time. -/
structure HistoryEntry where
  timestamp : Nat
  operation : String
  source : String
  destination : String
  result : String
deriving DecidableEq

/-- The history part of `MainWindow._add_history_entry`: append the entry,
then keep only the last 200 entries (`history[:] = history[-200:]` when
`len(history) > 200`).  The tab lookup and the `ConfigManager.save` call
of the source are outside the history model. -/
def add_history_entry (history : List HistoryEntry) (entry : HistoryEntry) :
    List HistoryEntry :=
  let h := history ++ [entry]
  if h.length > 200 then h.drop (h.length - 200) else h

/-- Per-item outcome of the `handle_drop` loop body.  `failed detail msg`
carries the exception text recorded in the history (`"failed: " ++ detail`)
and the entry added to `failure_messages` (`msg`). -/
inductive Outcome where
  | success
  | skipped
  | failed (detail : String) (msg : String)
deriving DecidableEq

/-- The `result` string that `handle_drop` passes to
`_add_history_entry` for each outcome: `"success"` on line 1152,
`"skipped (target exists, NEW only)"` on line 1129, and
`"failed: " ++ detail` on lines 1112 and 1160. -/
def resultString : Outcome → String
  | Outcome.success => "success"
  | Outcome.skipped => "skipped (target exists, NEW only)"
  | Outcome.failed detail _ => "failed: " ++ detail

/-- Whether an outcome is a success. -/
def Outcome.isSuccess : Outcome → Bool
  | Outcome.success => true
  | _ => false

/-- Whether an outcome is a failure. -/
def Outcome.isFailure : Outcome → Bool
  | Outcome.failed _ _ => true
  | _ => false

/-- Result of processing one source path: the filesystem reached
(exceptions keep mutations already made), the destination string recorded
in the history, and the outcome. -/
structure ItemResult where
  fs : FS
  destination : String
  outcome : Outcome
deriving DecidableEq

/-- The copy phase of the `handle_drop` try block (lines 1133-1141): a
directory source is copied with `shutil.copytree`, after
`shutil.rmtree(target)` when the target exists under a replace mode; a
file source is copied with `shutil.copy2`.  `texists` is the
`os.path.exists(target)` value computed before the try block. -/
def copyStep (env : Env) (mode : String) (fs : FS) (src target : String)
    (texists : Bool) : FS × Option String :=
  if isDir fs src then
    match (if texists && (mode == OP_COPY_REPLACE || mode == OP_MOVE_REPLACE)
           then rmtree env fs target else (fs, none)) with
    | (fs1, some e) => (fs1, some e)
    | (fs1, none) => copytree env fs1 src target
  else copy2 env fs src target

/-- The source-deletion phase of the `handle_drop` try block under a move
mode (lines 1144-1148): `shutil.rmtree` for a directory source,
`os.remove` for a file source. -/
def deleteStep (env : Env) (fs1 : FS) (src : String) : FS × Option String :=
  if isDir fs1 src then rmtree env fs1 src else osRemove env fs1 src

/-- The body of the `for src in src_paths` loop of `MainWindow.handle_drop`
(lines 1106-1161), acting on one source path:

1. a missing source is recorded as `failed`, with destination `""`;
2. `target = os.path.join(dest_root, basename(src.rstrip(os.sep)))`;
3. under `copy_new`/`move_new`, an existing target is skipped;
4. a directory source is copied with `shutil.copytree`, after
   `shutil.rmtree(target)` when the target exists under a replace mode;
   a file source is copied with `shutil.copy2`;
5. under a move mode the source is then deleted (`shutil.rmtree` for a
   directory, `os.remove` for a file);
6. any exception in steps 4-5 yields a `failed` outcome keeping the
   mutations performed before the exception. -/
def processItem (env : Env) (mode destRoot : String) (fs : FS) (src : String) :
    ItemResult :=
  if !(pathExists fs src) then
    { fs := fs, destination := "",
      outcome := Outcome.failed ("Source does not exist: " ++ src)
        ("Source does not exist: " ++ src) }
  else
    let target := joinPath destRoot (basename (rstripSep src))
    let texists := pathExists fs target
    if (mode == OP_COPY_NEW || mode == OP_MOVE_NEW) && texists then
      { fs := fs, destination := target, outcome := Outcome.skipped }
    else
      let step1 : FS × Option String := copyStep env mode fs src target texists
      let step2 : FS × Option String :=
        match step1 with
        | (fs1, some e) => (fs1, some e)
        | (fs1, none) =>
          if mode == OP_MOVE_REPLACE || mode == OP_MOVE_NEW then
            deleteStep env fs1 src
          else (fs1, none)
      match step2 with
      | (fs2, none) => { fs := fs2, destination := target, outcome := Outcome.success }
      | (fs2, some e) =>
        { fs := fs2, destination := target,
          outcome := Outcome.failed e
            ("Failed to " ++ mode ++ " \x27" ++ src ++ "\x27: " ++ e) }

/-- Running state of the `handle_drop` loop: the filesystem, the tab
history, the logical clock, the `successes` and `failures` counters and
the `failure_messages` list. -/
structure LoopState where
  fs : FS
  history : List HistoryEntry
  time : Nat
  successes : Nat
  failures : Nat
  messages : List String
deriving DecidableEq

/-- One iteration of the `handle_drop` loop: process the item, append the
history entry for it, and update the counters and message list according
to the outcome. -/
def stepItem (env : Env) (mode destRoot : String) (st : LoopState)
    (src : String) : LoopState :=
  let r := processItem env mode destRoot st.fs src
  let entry : HistoryEntry :=
    { timestamp := st.time, operation := mode, source := src,
      destination := r.destination, result := resultString r.outcome }
  let hist1 := add_history_entry st.history entry
  match r.outcome with
  | Outcome.success =>
    { fs := r.fs, history := hist1, time := st.time + 1,
      successes := st.successes + 1, failures := st.failures,
      messages := st.messages }
  | Outcome.skipped =>
    { fs := r.fs, history := hist1, time := st.time + 1,
      successes := st.successes, failures := st.failures,
      messages := st.messages }
  | Outcome.failed _ m =>
    { fs := r.fs, history := hist1, time := st.time + 1,
      successes := st.successes, failures := st.failures + 1,
      messages := st.messages ++ [m] }

/-- The `for src in src_paths` loop of `handle_drop`, item by item in
submission order. -/
def dropLoop (env : Env) (mode destRoot : String) :
    LoopState → List String → LoopState
  | st, [] => st
  | st, src :: rest =>
    dropLoop env mode destRoot (stepItem env mode destRoot st src) rest

/-- Result of a whole `handle_drop` call: either the batch-fatal
"no valid destination" outcome, carrying the untouched filesystem and
history, or the final loop state of a processed batch. -/
inductive DropOutcome where
  | noValidDest (fs : FS) (history : List HistoryEntry)
  | done (final : LoopState)
deriving DecidableEq

/-- `MainWindow.handle_drop` (lines 1087-1183) for a tab whose destination
is `destRoot` and whose operation is `mode`: reject the batch when the
destination is empty or not an existing directory, otherwise run the item
loop starting from zero counters and an empty message list. -/
def handle_drop (env : Env) (mode destRoot : String) (fs : FS)
    (history : List HistoryEntry) (t0 : Nat) (srcPaths : List String) :
    DropOutcome :=
  if destRoot == "" || !(isDir fs destRoot) then
    DropOutcome.noValidDest fs history
  else
    DropOutcome.done (dropLoop env mode destRoot
      { fs := fs, history := history, time := t0, successes := 0,
        failures := 0, messages := [] } srcPaths)

/-- A tab object of a persisted or exchanged configuration document.
An `Option` field is `none` exactly when the JSON key is missing. -/
structure RawTab where
  id : Option String
  name : Option String
  path : Option String
  operation : Option String
  history : Option (List HistoryEntry)
deriving DecidableEq

/-- A configuration document: the `tabs` list. -/
structure Config where
  tabs : List RawTab
deriving DecidableEq

/-- Whether a string is one of the four enumerated operation modes, as in
the set literal of `ConfigManager.load` lines 119-124. -/
def isEnumMode (op : String) : Bool :=
  op == OP_COPY_REPLACE || op == OP_COPY_NEW ||
    op == OP_MOVE_REPLACE || op == OP_MOVE_NEW

/-- The operation normalization of `ConfigManager.load` lines 114-126
(repeated verbatim in `MainWindow.import_config` lines 1240-1252): legacy
`"copy"` maps to `copy_replace`, legacy `"move"` to `move_replace`, a
value outside the four enumerated modes to `copy_replace`, and an
enumerated value is unchanged. -/
def normalizeOp (op : String) : String :=
  if op == "copy" then OP_COPY_REPLACE
  else if op == "move" then OP_MOVE_REPLACE
  else if isEnumMode op then op
  else OP_COPY_REPLACE

/-- The per-tab normalization loop body shared by `ConfigManager.load`
lines 108-129 and `MainWindow.import_config` lines 1235-1253: `setdefault`
fills a missing id with a fresh identifier (`freshId` models
`uuid.uuid4()`), a missing name with `"Unnamed"`, a missing path with
`""`, a missing history with `[]`; the operation read with default
`copy_replace` is normalized by `normalizeOp` and written back. -/
def normalizeTab (freshId : String) (t : RawTab) : RawTab :=
  { id := some (t.id.getD freshId),
    name := some (t.name.getD "Unnamed"),
    path := some (t.path.getD ""),
    operation := some (normalizeOp (t.operation.getD OP_COPY_REPLACE)),
    history := some (t.history.getD []) }

/-- Normalize a tab list, drawing the `i`-th fresh identifier from
`fresh i`. -/
def normalizeTabsFrom (fresh : Nat → String) : Nat → List RawTab → List RawTab
  | _, [] => []
  | i, t :: ts => normalizeTab (fresh i) t :: normalizeTabsFrom fresh (i + 1) ts

/-- `generate_default_config` (lines 74-87): five tabs named `L1`..`L5`
with fresh identifiers, empty path, mode `copy_replace` and empty
history. -/
def generate_default_config (ids : Nat → String) : Config :=
  { tabs := (List.range 5).map (fun i =>
      { id := some (ids i), name := some ("L" ++ toString (i + 1)),
        path := some "", operation := some OP_COPY_REPLACE,
        history := some [] }) }

/-- The state of the persisted configuration file as `ConfigManager.load`
or `MainWindow.import_config` observes it: absent, raising on read or
parse (or on any later dictionary access, all caught by the same
`except`), parsed but with `tabs` missing or not a list, or a parsed
document with a tab list. -/
inductive FileState where
  | absent
  | unreadable
  | invalidTabs
  | doc (tabs : List RawTab)
deriving DecidableEq

namespace ConfigManager

/-- `ConfigManager.load` (lines 96-134).  A total function: every failure
path (absent file, unreadable or unparsable file, missing or non-list
`tabs`) returns `generate_default_config` instead of raising.  `fresh`
models the `uuid.uuid4()` calls for tabs with a missing id, `dflt` those
of `generate_default_config`. -/
def load (fresh dflt : Nat → String) : FileState → Config
  | FileState.absent => generate_default_config dflt
  | FileState.unreadable => generate_default_config dflt
  | FileState.invalidTabs => generate_default_config dflt
  | FileState.doc ts => { tabs := normalizeTabsFrom fresh 0 ts }

end ConfigManager

/-- The outcome the user picks in the `import_config` dialog. -/
inductive ImportChoice where
  | replaceTabs
  | mergeTabs
  | abortImport
deriving DecidableEq

/-- `MainWindow.import_config` (lines 1207-1277) as a document transform:
an unreadable document or one with `tabs` missing or not a list is
rejected with the current config untouched; otherwise the imported tabs
are normalized (same loop as load) and, per the chosen outcome, replace
the current tabs, are appended to them, or are discarded. -/
def import_config (fresh : Nat → String) (current : Config) :
    FileState → ImportChoice → Config
  | FileState.absent, _ => current
  | FileState.unreadable, _ => current
  | FileState.invalidTabs, _ => current
  | FileState.doc ts, choice =>
    match choice with
    | ImportChoice.replaceTabs => { tabs := normalizeTabsFrom fresh 0 ts }
    | ImportChoice.mergeTabs =>
        { tabs := current.tabs ++ normalizeTabsFrom fresh 0 ts }
    | ImportChoice.abortImport => current

/-- `MainWindow.export_config` (lines 1187-1205): the live config document
is serialized unchanged; the JSON write/read round trip is modelled as the
identity on the document, so the exported file parses back to the same
tab list. -/
def export_config (c : Config) : FileState :=
  FileState.doc c.tabs

/-- A tab in which every key is present and the operation is one of the
four enumerated modes — the shape every tab of the live config has after
load-time or import-time normalization. -/
def WellFormedTab (t : RawTab) : Prop :=
  t.id.isSome = true ∧ t.name.isSome = true ∧ t.path.isSome = true ∧
    t.history.isSome = true ∧
    ∃ op, t.operation = some op ∧ isEnumMode op = true

instance (t : RawTab) : Decidable (WellFormedTab t) :=
  decidable_of_iff
    (t.id.isSome = true ∧ t.name.isSome = true ∧ t.path.isSome = true ∧
      t.history.isSome = true ∧ t.operation.elim false isEnumMode = true)
    (by
      unfold WellFormedTab
      constructor
      · rintro ⟨h1, h2, h3, h4, h5⟩
        refine ⟨h1, h2, h3, h4, ?_⟩
        rcases ho : t.operation with _ | op
        · rw [ho] at h5; simp [Option.elim] at h5
        · rw [ho] at h5; exact ⟨op, rfl, h5⟩
      · rintro ⟨h1, h2, h3, h4, op, hop, he⟩
        exact ⟨h1, h2, h3, h4, by rw [hop]; exact he⟩)

/-! ## Helper lemmas -/

/-- Under a new-only mode, an existing target makes `processItem` record a
skip and leave the filesystem untouched. -/
theorem processItem_skip (env : Env) (mode destRoot : String) (fs : FS)
    (src : String) (hmode : mode = OP_COPY_NEW ∨ mode = OP_MOVE_NEW)
    (hsrc : pathExists fs src = true)
    (htgt : pathExists fs (joinPath destRoot (basename (rstripSep src))) = true) :
    processItem env mode destRoot fs src =
      { fs := fs, destination := joinPath destRoot (basename (rstripSep src)),
        outcome := Outcome.skipped } := by
  rcases hmode with h | h <;> subst h <;>
    simp [processItem, hsrc, htgt, OP_COPY_NEW, OP_MOVE_NEW]

/-- One loop iteration appends exactly one history entry (built from the
item's destination and result string) and bumps the counter matching the
outcome. -/
theorem stepItem_spec (env : Env) (mode destRoot : String) (st : LoopState)
    (src : String) :
    (stepItem env mode destRoot st src).history =
      add_history_entry st.history
        { timestamp := st.time, operation := mode, source := src,
          destination := (processItem env mode destRoot st.fs src).destination,
          result := resultString (processItem env mode destRoot st.fs src).outcome } ∧
    (stepItem env mode destRoot st src).successes =
      st.successes +
        (if (processItem env mode destRoot st.fs src).outcome.isSuccess then 1 else 0) ∧
    (stepItem env mode destRoot st src).failures =
      st.failures +
        (if (processItem env mode destRoot st.fs src).outcome.isFailure then 1 else 0) := by
  rcases hoc : (processItem env mode destRoot st.fs src).outcome with _ | _ | ⟨d, m⟩ <;>
    simp [stepItem, hoc, Outcome.isSuccess, Outcome.isFailure]

/-- `add_history_entry` always yields the suffix of the appended list
keeping at most the last 200 entries. -/
theorem add_history_entry_eq_drop (h : List HistoryEntry) (e : HistoryEntry) :
    add_history_entry h e = (h ++ [e]).drop ((h ++ [e]).length - 200) := by
  simp only [add_history_entry]
  split
  · rfl
  · next hle =>
    have h0 : (h ++ [e]).length - 200 = 0 := by omega
    rw [h0, List.drop_zero]

/-- One append never leaves more than 200 entries. -/
theorem add_history_entry_length_le (h : List HistoryEntry) (e : HistoryEntry) :
    (add_history_entry h e).length ≤ 200 := by
  simp only [add_history_entry]
  split
  · next hgt => simp only [List.length_drop]; omega
  · next hle => omega

/-- Re-trimming after an append of further entries is the same as trimming
once at the end. -/
theorem drop_trim_append {α : Type} (l m : List α) :
    ((l.drop (l.length - 200)) ++ m).drop
        (((l.drop (l.length - 200)) ++ m).length - 200) =
      (l ++ m).drop ((l ++ m).length - 200) := by
  have hX : l.drop (l.length - 200) ++ m = (l ++ m).drop (l.length - 200) :=
    (List.drop_append_of_le_length (Nat.sub_le l.length 200)).symm
  rw [hX, List.drop_drop]
  simp only [List.length_append, List.length_drop]
  have harith : l.length - 200 + (l.length + m.length - (l.length - 200) - 200) =
      l.length + m.length - 200 := by omega
  rw [harith]

/-- Folding `add_history_entry` over a list of appends from a state within
the bound keeps exactly the most recent 200 entries in order. -/
theorem foldl_add_history_entry (es : List HistoryEntry) :
    ∀ init : List HistoryEntry, init.length ≤ 200 →
      List.foldl add_history_entry init es =
        (init ++ es).drop ((init ++ es).length - 200) := by
  induction es with
  | nil =>
    intro init h
    have h0 : init.length - 200 = 0 := by omega
    simp [h0]
  | cons e es ih =>
    intro init h
    rw [List.foldl_cons, ih _ (add_history_entry_length_le init e),
      add_history_entry_eq_drop, drop_trim_append]
    simp

/-! ## Claims -/

/-- C2. If the tab's destination path is empty or is not currently an
existing directory, `handle_drop` rejects the whole batch up front with
the fatal "no valid destination" outcome: the filesystem and the history
are returned untouched, so no filesystem operation is performed and no
history entry is recorded for any item. -/
theorem claim_C2_invalid_destination_rejects_batch (env : Env)
    (mode destRoot : String) (fs : FS) (history : List HistoryEntry)
    (t0 : Nat) (srcPaths : List String)
    (h : destRoot = "" ∨ isDir fs destRoot = false) :
    handle_drop env mode destRoot fs history t0 srcPaths =
      DropOutcome.noValidDest fs history := by
  rcases h with h | h
  · subst h; simp [handle_drop]
  · simp [handle_drop, h]

/-- Witness for C2: a tab with destination `"/gone"` absent from the
filesystem rejects a one-item batch without touching anything. -/
theorem claim_C2_witness :
    ("/gone" = "" ∨ isDir ([("/a", FsNode.file "A")] : FS) "/gone" = false) ∧
    handle_drop { copyFailures := [], deleteFailures := [] } OP_COPY_REPLACE
        "/gone" ([("/a", FsNode.file "A")] : FS) [] 0 ["/a"] =
      DropOutcome.noValidDest ([("/a", FsNode.file "A")] : FS) [] :=
  ⟨Or.inr (by decide),
    claim_C2_invalid_destination_rejects_batch
      { copyFailures := [], deleteFailures := [] } OP_COPY_REPLACE "/gone"
      ([("/a", FsNode.file "A")] : FS) [] 0 ["/a"] (Or.inr (by decide))⟩

/-- C7. Under `copy_new` or `move_new`, an item whose computed target
already exists is recorded as skipped with result
`"skipped (target exists, NEW only)"`, and no filesystem mutation occurs
for that item: `processItem` returns the filesystem unchanged, so the
pre-existing target's contents are unchanged and the source is not
deleted. -/
theorem claim_C7_new_only_skip_is_pure (env : Env) (mode destRoot : String)
    (fs : FS) (src : String)
    (hmode : mode = OP_COPY_NEW ∨ mode = OP_MOVE_NEW)
    (hsrc : pathExists fs src = true)
    (htgt : pathExists fs (joinPath destRoot (basename (rstripSep src))) = true) :
    processItem env mode destRoot fs src =
      { fs := fs, destination := joinPath destRoot (basename (rstripSep src)),
        outcome := Outcome.skipped } ∧
    resultString (processItem env mode destRoot fs src).outcome =
      "skipped (target exists, NEW only)" := by
  have h := processItem_skip env mode destRoot fs src hmode hsrc htgt
  exact ⟨h, by rw [h]; rfl⟩

/-- Witness for C7: copying `/a` into `/dst` under `copy_new` when
`/dst/a` already exists. -/
theorem claim_C7_witness :
    (OP_COPY_NEW = OP_COPY_NEW ∨ OP_COPY_NEW = OP_MOVE_NEW) ∧
    pathExists [("/dst", FsNode.dir "D"), ("/a", FsNode.file "A"),
      ("/dst/a", FsNode.file "OLD")] "/a" = true ∧
    processItem { copyFailures := [], deleteFailures := [] } OP_COPY_NEW "/dst"
        [("/dst", FsNode.dir "D"), ("/a", FsNode.file "A"),
          ("/dst/a", FsNode.file "OLD")] "/a" =
      { fs := [("/dst", FsNode.dir "D"), ("/a", FsNode.file "A"),
          ("/dst/a", FsNode.file "OLD")],
        destination := joinPath "/dst" (basename (rstripSep "/a")),
        outcome := Outcome.skipped } :=
  ⟨Or.inl rfl, by decide,
    (claim_C7_new_only_skip_is_pure { copyFailures := [], deleteFailures := [] }
      OP_COPY_NEW "/dst"
      [("/dst", FsNode.dir "D"), ("/a", FsNode.file "A"),
        ("/dst/a", FsNode.file "OLD")] "/a" (Or.inl rfl) (by decide) (by decide)).1⟩

/-- C9. A skipped item (new-only mode, target exists) leaves both the
`successes` and the `failures` counter of the batch unchanged, while still
appending exactly one history entry for the item: the loop iteration only
advances the clock and the history. -/
theorem claim_C9_skip_increments_no_counter (env : Env)
    (mode destRoot : String) (st : LoopState) (src : String)
    (hmode : mode = OP_COPY_NEW ∨ mode = OP_MOVE_NEW)
    (hsrc : pathExists st.fs src = true)
    (htgt : pathExists st.fs (joinPath destRoot (basename (rstripSep src))) = true) :
    stepItem env mode destRoot st src =
      { fs := st.fs,
        history := add_history_entry st.history
          { timestamp := st.time, operation := mode, source := src,
            destination := joinPath destRoot (basename (rstripSep src)),
            result := "skipped (target exists, NEW only)" },
        time := st.time + 1, successes := st.successes,
        failures := st.failures, messages := st.messages } := by
  have h := processItem_skip env mode destRoot st.fs src hmode hsrc htgt
  simp [stepItem, h, resultString]

/-- Witness for C9: the skipped item of the C7 scenario inside a running
batch with counters `(successes, failures) = (3, 4)` leaves them `(3, 4)`. -/
theorem claim_C9_witness :
    (OP_MOVE_NEW = OP_COPY_NEW ∨ OP_MOVE_NEW = OP_MOVE_NEW) ∧
    stepItem { copyFailures := [], deleteFailures := [] } OP_MOVE_NEW "/dst"
        { fs := [("/dst", FsNode.dir "D"), ("/b", FsNode.file "B"),
            ("/dst/b", FsNode.file "OLD")],
          history := [], time := 7, successes := 3, failures := 4,
          messages := [] } "/b" =
      { fs := [("/dst", FsNode.dir "D"), ("/b", FsNode.file "B"),
          ("/dst/b", FsNode.file "OLD")],
        history := add_history_entry []
          { timestamp := 7, operation := OP_MOVE_NEW, source := "/b",
            destination := joinPath "/dst" (basename (rstripSep "/b")),
            result := "skipped (target exists, NEW only)" },
        time := 8, successes := 3, failures := 4, messages := [] } :=
  ⟨Or.inr rfl,
    claim_C9_skip_increments_no_counter
      { copyFailures := [], deleteFailures := [] } OP_MOVE_NEW "/dst"
      { fs := [("/dst", FsNode.dir "D"), ("/b", FsNode.file "B"),
          ("/dst/b", FsNode.file "OLD")],
        history := [], time := 7, successes := 3, failures := 4,
        messages := [] } "/b" (Or.inr rfl) (by decide) (by decide)⟩

/-- C4. After any nonempty sequence of history appends to any starting
history, the history holds at most 200 entries, and it is exactly the
suffix of `init ++ es` of length at most 200 — the most recent appended
entries in their original append order, with the oldest evicted first. -/
theorem claim_C4_history_bounded_fifo (init es : List HistoryEntry)
    (hne : es ≠ []) :
    (List.foldl add_history_entry init es).length ≤ 200 ∧
      List.foldl add_history_entry init es =
        (init ++ es).drop ((init ++ es).length - 200) := by
  rcases es with _ | ⟨e, es⟩
  · exact absurd rfl hne
  · have heq : List.foldl add_history_entry init (e :: es) =
        (init ++ e :: es).drop ((init ++ e :: es).length - 200) := by
      rw [List.foldl_cons,
        foldl_add_history_entry es _ (add_history_entry_length_le init e),
        add_history_entry_eq_drop, drop_trim_append]
      simp
    refine ⟨?_, heq⟩
    rw [heq]
    simp only [List.length_drop]
    omega

/-- Witness for C4: one append to an empty history. -/
theorem claim_C4_witness :
    (([HistoryEntry.mk 0 "copy_replace" "/a" "/dst/a" "success"] : List HistoryEntry) ≠ []) ∧
    (List.foldl add_history_entry [] [HistoryEntry.mk 0 "copy_replace" "/a" "/dst/a" "success"]).length ≤ 200 :=
  ⟨by decide,
    (claim_C4_history_bounded_fifo []
      [HistoryEntry.mk 0 "copy_replace" "/a" "/dst/a" "success"] (by decide)).1⟩

/-- The batch loop processes every source path in submission order: there
is a trace with exactly one `(history entry, outcome)` pair per source
path, the final history is the starting history with the trace entries
appended (through the bounded append), and the counters grow by exactly
the number of success and failure outcomes of the trace. -/
theorem dropLoop_trace (env : Env) (mode destRoot : String) :
    ∀ (srcs : List String) (st : LoopState),
      ∃ tr : List (HistoryEntry × Outcome),
        tr.map (fun p => p.1.source) = srcs ∧
        (∀ p ∈ tr, p.1.result = resultString p.2 ∧ p.1.operation = mode) ∧
        (dropLoop env mode destRoot st srcs).history =
          List.foldl add_history_entry st.history (tr.map Prod.fst) ∧
        (dropLoop env mode destRoot st srcs).successes =
          st.successes + tr.countP (fun p => p.2.isSuccess) ∧
        (dropLoop env mode destRoot st srcs).failures =
          st.failures + tr.countP (fun p => p.2.isFailure) := by
  intro srcs
  induction srcs with
  | nil => intro st; exact ⟨[], by simp [dropLoop]⟩
  | cons src rest ih =>
    intro st
    obtain ⟨tr, h1, h2, h3, h4, h5⟩ := ih (stepItem env mode destRoot st src)
    obtain ⟨hh, hs, hf⟩ := stepItem_spec env mode destRoot st src
    refine ⟨(HistoryEntry.mk st.time mode src
        (processItem env mode destRoot st.fs src).destination
        (resultString (processItem env mode destRoot st.fs src).outcome),
        (processItem env mode destRoot st.fs src).outcome) :: tr,
      ?_, ?_, ?_, ?_, ?_⟩
    · simp [h1]
    · intro p hp
      rcases List.mem_cons.mp hp with hp | hp
      · subst hp; exact ⟨rfl, rfl⟩
      · exact h2 p hp
    · show (dropLoop env mode destRoot (stepItem env mode destRoot st src) rest).history = _
      rw [h3, List.map_cons, List.foldl_cons, hh]
    · show (dropLoop env mode destRoot (stepItem env mode destRoot st src) rest).successes = _
      rw [h4, hs, List.countP_cons]
      rcases (processItem env mode destRoot st.fs src).outcome <;>
        simp [Outcome.isSuccess] <;> omega
    · show (dropLoop env mode destRoot (stepItem env mode destRoot st src) rest).failures = _
      rw [h5, hf, List.countP_cons]
      rcases (processItem env mode destRoot st.fs src).outcome <;>
        simp [Outcome.isFailure] <;> omega

/-- C1. For a batch executed against a tab with a valid destination, no
per-item failure aborts the batch: `handle_drop` runs the loop over every
submitted source path, yields a trace with exactly one history entry per
source path appended in submission order, counts each success outcome in
`successes` and each failure outcome in `failures`; and in the concrete
3-item batch `["/a", "/b", "/c"]` where only `/b` is missing, the result
has 2 successes, 1 failure and exactly 3 history entries in submission
order. -/
theorem claim_C1_batch_failure_isolation (env : Env) (mode destRoot : String)
    (fs : FS) (history : List HistoryEntry) (t0 : Nat) (srcs : List String)
    (hne : destRoot ≠ "") (hdir : isDir fs destRoot = true) :
    (∃ (st : LoopState) (tr : List (HistoryEntry × Outcome)),
      handle_drop env mode destRoot fs history t0 srcs = DropOutcome.done st ∧
      tr.map (fun p => p.1.source) = srcs ∧
      (∀ p ∈ tr, p.1.result = resultString p.2 ∧ p.1.operation = mode) ∧
      st.history = List.foldl add_history_entry history (tr.map Prod.fst) ∧
      st.successes = tr.countP (fun p => p.2.isSuccess) ∧
      st.failures = tr.countP (fun p => p.2.isFailure)) ∧
    (∃ st3 : LoopState,
      handle_drop { copyFailures := [], deleteFailures := [] } OP_COPY_REPLACE
          "/dst" [("/dst", FsNode.dir "D"), ("/a", FsNode.file "A"),
            ("/c", FsNode.file "C")] [] 0 ["/a", "/b", "/c"] =
        DropOutcome.done st3 ∧
      st3.successes = 2 ∧ st3.failures = 1 ∧
      st3.history.map (fun e => e.source) = ["/a", "/b", "/c"] ∧
      st3.history.length = 3) := by
  constructor
  · obtain ⟨tr, h1, h2, h3, h4, h5⟩ := dropLoop_trace env mode destRoot srcs
      { fs := fs, history := history, time := t0, successes := 0,
        failures := 0, messages := [] }
    refine ⟨_, tr, ?_, h1, h2, h3, by simpa using h4, by simpa using h5⟩
    simp [handle_drop, hne, hdir]
  · exact ⟨_, rfl, by decide, by decide, by decide, by decide⟩

/-- Witness for C1: the hypotheses hold for the concrete 3-item scenario
of the claim. -/
theorem claim_C1_witness :
    (("/dst" : String) ≠ "" ∧
      isDir [("/dst", FsNode.dir "D"), ("/a", FsNode.file "A"),
        ("/c", FsNode.file "C")] "/dst" = true) ∧
    (∃ st3 : LoopState,
      handle_drop { copyFailures := [], deleteFailures := [] } OP_COPY_REPLACE
          "/dst" [("/dst", FsNode.dir "D"), ("/a", FsNode.file "A"),
            ("/c", FsNode.file "C")] [] 0 ["/a", "/b", "/c"] =
        DropOutcome.done st3 ∧
      st3.successes = 2 ∧ st3.failures = 1 ∧
      st3.history.map (fun e => e.source) = ["/a", "/b", "/c"] ∧
      st3.history.length = 3) :=
  ⟨⟨by decide, by decide⟩,
    (claim_C1_batch_failure_isolation
      { copyFailures := [], deleteFailures := [] } OP_COPY_REPLACE "/dst"
      [("/dst", FsNode.dir "D"), ("/a", FsNode.file "A"),
        ("/c", FsNode.file "C")] [] 0 ["/a", "/b", "/c"]
      (by decide) (by decide)).2⟩

/-- Looking up the path just written by `fsSet` returns the written node. -/
theorem fsLookup_fsSet_self (fs : FS) (p : String) (n : FsNode) :
    fsLookup (fsSet fs p n) p = some n := by
  simp [fsLookup, fsSet, List.lookup]

/-- C3 counterexample. Moving the file `/s` into `/dst` under
`move_replace` when deleting `/s` raises `Permission denied` after a
successful copy: the destination `/dst/s` holds the data, but the history
result recorded for the item is `"failed: Permission denied"` — the
generic transfer-failure string built from the exception text — and not
the distinct reason `"move completed copy but source delete failed"`
the claim requires; no such category exists in the code. -/
theorem claim_C3_counterexample :
    processItem
        { copyFailures := [], deleteFailures := [("/s", "Permission denied")] }
        OP_MOVE_REPLACE "/dst"
        [("/dst", FsNode.dir "D"), ("/s", FsNode.file "S")] "/s" =
      ItemResult.mk
        [("/dst/s", FsNode.file "S"), ("/dst", FsNode.dir "D"),
          ("/s", FsNode.file "S")]
        "/dst/s"
        (Outcome.failed "Permission denied"
          "Failed to move_replace \x27/s\x27: Permission denied") ∧
    resultString
        (processItem
          { copyFailures := [], deleteFailures := [("/s", "Permission denied")] }
          OP_MOVE_REPLACE "/dst"
          [("/dst", FsNode.dir "D"), ("/s", FsNode.file "S")] "/s").outcome =
      "failed: Permission denied" ∧
    ("failed: Permission denied" : String) ≠
      "move completed copy but source delete failed" ∧
    ("failed: Permission denied" : String) ≠
      "failed: move completed copy but source delete failed" ∧
    fsLookup
        (processItem
          { copyFailures := [], deleteFailures := [("/s", "Permission denied")] }
          OP_MOVE_REPLACE "/dst"
          [("/dst", FsNode.dir "D"), ("/s", FsNode.file "S")] "/s").fs
        "/dst/s" =
      some (FsNode.file "S") := by
  refine ⟨by decide, by decide, by decide, by decide, by decide⟩

/-- Looking a key up after filtering another key out of an association
list is looking it up in the original list. -/
theorem lookup_filter_ne {β : Type} (l : List (String × β)) (p q : String) :
    List.lookup q (List.filter (fun e => !(e.1 == p)) l) =
      if q = p then none else List.lookup q l := by
  induction l with
  | nil => simp
  | cons kv rest ih =>
    rcases kv with ⟨k, v⟩
    rw [List.filter_cons]
    by_cases hk : k = p
    · subst hk
      simp only [show (!((k, v).1 == k)) = false by simp, Bool.false_eq_true,
        if_false]
      rw [ih]
      by_cases hq : q = k
      · simp [hq]
      · rw [if_neg hq, if_neg hq, List.lookup_cons, beq_false_of_ne hq]
    · simp only [show (!((k, v).1 == p)) = true by simp [hk], if_true]
      rw [List.lookup_cons, List.lookup_cons]
      by_cases hq : q = k
      · subst hq
        simp only [beq_self_eq_true]
        rw [if_neg hk]
      · rw [beq_false_of_ne hq, ih]

/-- Erasing a path removes exactly that binding. -/
theorem fsLookup_fsErase (fs : FS) (p q : String) :
    fsLookup (fsErase fs p) q = if q = p then none else fsLookup fs q :=
  lookup_filter_ne fs p q

/-- Setting a path overwrites exactly that binding. -/
theorem fsLookup_fsSet (fs : FS) (p q : String) (n : FsNode) :
    fsLookup (fsSet fs p n) q = if q = p then some n else fsLookup fs q := by
  show List.lookup q ((p, n) :: fsErase fs p) =
    if q = p then some n else fsLookup fs q
  rw [List.lookup_cons]
  by_cases hq : q = p
  · subst hq
    simp
  · rw [beq_false_of_ne hq, if_neg hq]
    have he := fsLookup_fsErase fs p q
    rw [if_neg hq] at he
    exact he

/-- A failing source deletion performs no rollback and no mutation: the
filesystem the exception leaves behind is the one the copy produced. -/
theorem deleteStep_error_preserves (env : Env) (fs1 fs2 : FS) (src e : String)
    (h : deleteStep env fs1 src = (fs2, some e)) : fs2 = fs1 := by
  unfold deleteStep rmtree osRemove at h
  repeat' split at h
  all_goals injection h with h1 h2
  all_goals first
    | exact h1.symm
    | cases h2

/-- After a successful copy phase the target path exists: the destination
holds the copied data. -/
theorem copyStep_success_pathExists (env : Env) (mode : String) (fs fs1 : FS)
    (src target : String) (texists : Bool)
    (h : copyStep env mode fs src target texists = (fs1, none)) :
    pathExists fs1 target = true := by
  unfold copyStep copytree copy2 at h
  repeat' split at h
  all_goals injection h with h1 h2
  all_goals try cases h2
  all_goals rw [← h1]
  all_goals simp only [pathExists, fsLookup_fsSet]
  all_goals split
  all_goals first
    | simp
    | simp_all

/-- C3 amended. For every item under a move mode that is not skipped,
whose copy phase succeeds and whose subsequent source deletion raises `e`
(directory or file source alike), the item is recorded as a failure whose
history result is `"failed: " ++ e`, built from the exception text exactly
as an ordinary transfer failure is, and counted as a failure; the deletion
failure performs no rollback, so the destination still holds the copied
data; there is no distinct `PostMoveSourceDeleteFailed` reason. -/
theorem claim_C3_amended_post_move_delete_failure (env : Env)
    (mode destRoot : String) (fs fs1 fs2 : FS) (src e : String)
    (hmode : mode = OP_MOVE_REPLACE ∨ mode = OP_MOVE_NEW)
    (hsrc : pathExists fs src = true)
    (hnoskip : mode = OP_MOVE_NEW →
      pathExists fs (joinPath destRoot (basename (rstripSep src))) = false)
    (hcopy : copyStep env mode fs src
        (joinPath destRoot (basename (rstripSep src)))
        (pathExists fs (joinPath destRoot (basename (rstripSep src)))) =
      (fs1, none))
    (hdel : deleteStep env fs1 src = (fs2, some e)) :
    processItem env mode destRoot fs src =
      ItemResult.mk fs2 (joinPath destRoot (basename (rstripSep src)))
        (Outcome.failed e ("Failed to " ++ mode ++ " \x27" ++ src ++ "\x27: " ++ e)) ∧
    fs2 = fs1 ∧
    pathExists fs2 (joinPath destRoot (basename (rstripSep src))) = true ∧
    resultString (processItem env mode destRoot fs src).outcome =
      "failed: " ++ e ∧
    (processItem env mode destRoot fs src).outcome.isFailure = true := by
  have hfs : fs2 = fs1 := deleteStep_error_preserves env fs1 fs2 src e hdel
  have hpe : pathExists fs2 (joinPath destRoot (basename (rstripSep src))) =
      true := by
    rw [hfs]
    exact copyStep_success_pathExists env mode fs fs1 src _ _ hcopy
  have hmain : processItem env mode destRoot fs src =
      ItemResult.mk fs2 (joinPath destRoot (basename (rstripSep src)))
        (Outcome.failed e ("Failed to " ++ mode ++ " \x27" ++ src ++ "\x27: " ++ e)) := by
    rcases hmode with hm | hm <;> subst hm
    · have hb1 : (OP_MOVE_REPLACE == OP_COPY_NEW ||
          OP_MOVE_REPLACE == OP_MOVE_NEW) = false := by decide
      have hb2 : (OP_MOVE_REPLACE == OP_MOVE_REPLACE ||
          OP_MOVE_REPLACE == OP_MOVE_NEW) = true := by decide
      simp [processItem, hsrc, hb1, hb2, hcopy, hdel]
    · have ht : pathExists fs (joinPath destRoot (basename (rstripSep src))) =
          false := hnoskip rfl
      rw [ht] at hcopy
      have hb1 : (OP_MOVE_NEW == OP_COPY_NEW ||
          OP_MOVE_NEW == OP_MOVE_NEW) = true := by decide
      have hb2 : (OP_MOVE_NEW == OP_MOVE_REPLACE ||
          OP_MOVE_NEW == OP_MOVE_NEW) = true := by decide
      simp [processItem, hsrc, ht, hb1, hb2, hcopy, hdel]
  exact ⟨hmain, hfs, hpe, by rw [hmain]; rfl, by rw [hmain]; rfl⟩

/-- Witness for the amended C3, covering both source kinds: moving the
file `/src/f` to `/out` under `move_new` when deleting `/src/f` raises
`disk error`, and moving the directory `/d` to `/out` under `move_replace`
when deleting `/d` raises `PermissionError`. -/
theorem claim_C3_witness :
    resultString (processItem
        { copyFailures := [], deleteFailures := [("/src/f", "disk error")] }
        OP_MOVE_NEW "/out"
        [("/out", FsNode.dir "O"), ("/src/f", FsNode.file "F")]
        "/src/f").outcome = "failed: " ++ "disk error" ∧
    (processItem
        { copyFailures := [], deleteFailures := [("/src/f", "disk error")] }
        OP_MOVE_NEW "/out"
        [("/out", FsNode.dir "O"), ("/src/f", FsNode.file "F")]
        "/src/f").outcome.isFailure = true ∧
    resultString (processItem
        { copyFailures := [], deleteFailures := [("/d", "PermissionError")] }
        OP_MOVE_REPLACE "/out"
        [("/out", FsNode.dir "O"), ("/d", FsNode.dir "T")]
        "/d").outcome = "failed: " ++ "PermissionError" ∧
    (processItem
        { copyFailures := [], deleteFailures := [("/d", "PermissionError")] }
        OP_MOVE_REPLACE "/out"
        [("/out", FsNode.dir "O"), ("/d", FsNode.dir "T")]
        "/d").outcome.isFailure = true := by
  have hA := claim_C3_amended_post_move_delete_failure
    { copyFailures := [], deleteFailures := [("/src/f", "disk error")] }
    OP_MOVE_NEW "/out"
    [("/out", FsNode.dir "O"), ("/src/f", FsNode.file "F")]
    [("/out/f", FsNode.file "F"), ("/out", FsNode.dir "O"),
      ("/src/f", FsNode.file "F")]
    [("/out/f", FsNode.file "F"), ("/out", FsNode.dir "O"),
      ("/src/f", FsNode.file "F")]
    "/src/f" "disk error" (Or.inr rfl) (by decide) (fun _ => by decide)
    (by decide) (by decide)
  have hB := claim_C3_amended_post_move_delete_failure
    { copyFailures := [], deleteFailures := [("/d", "PermissionError")] }
    OP_MOVE_REPLACE "/out"
    [("/out", FsNode.dir "O"), ("/d", FsNode.dir "T")]
    [("/out/d", FsNode.dir "T"), ("/out", FsNode.dir "O"),
      ("/d", FsNode.dir "T")]
    [("/out/d", FsNode.dir "T"), ("/out", FsNode.dir "O"),
      ("/d", FsNode.dir "T")]
    "/d" "PermissionError" (Or.inl rfl) (by decide)
    (fun h => absurd h (by decide)) (by decide) (by decide)
  exact ⟨hA.2.2.2.1, hA.2.2.2.2, hB.2.2.2.1, hB.2.2.2.2⟩

/-- `normalizeOp` keeps an enumerated mode unchanged. -/
theorem normalizeOp_enum (op : String) (h : isEnumMode op = true) :
    normalizeOp op = op := by
  simp only [isEnumMode, Bool.or_eq_true, beq_iff_eq, OP_COPY_REPLACE,
    OP_COPY_NEW, OP_MOVE_REPLACE, OP_MOVE_NEW] at h
  rcases h with ((h | h) | h) | h <;> subst h <;> decide

/-- `normalizeOp` always yields one of the four enumerated modes. -/
theorem normalizeOp_isEnum (op : String) : isEnumMode (normalizeOp op) = true := by
  unfold normalizeOp
  split
  · decide
  · split
    · decide
    · split
      · next h => exact h
      · decide

/-- Normalization is the identity on a tab that already has every key and
an enumerated operation. -/
theorem normalizeTab_wellFormed (fid : String) (t : RawTab)
    (h : WellFormedTab t) : normalizeTab fid t = t := by
  rcases t with ⟨ti, tn, tp, tops, th⟩
  obtain ⟨h1, h2, h3, h4, op, hop, henum⟩ := h
  rcases ti with _ | i
  · simp at h1
  rcases tn with _ | n
  · simp at h2
  rcases tp with _ | p
  · simp at h3
  rcases th with _ | hl
  · simp at h4
  simp only at hop
  subst hop
  simp [normalizeTab, normalizeOp_enum op henum]

/-- Normalization is the identity on a list of well-formed tabs. -/
theorem normalizeTabsFrom_wellFormed (fresh : Nat → String) :
    ∀ (ts : List RawTab), (∀ t ∈ ts, WellFormedTab t) →
      ∀ i, normalizeTabsFrom fresh i ts = ts := by
  intro ts
  induction ts with
  | nil => intro _ i; rfl
  | cons t ts ih =>
    intro h i
    simp only [normalizeTabsFrom]
    rw [normalizeTab_wellFormed _ t (h t (List.mem_cons_self t ts)),
      ih (fun x hx => h x (List.mem_cons_of_mem t hx)) (i + 1)]

/-- Every tab produced by the normalization loop is the normalization of
some input tab. -/
theorem mem_normalizeTabsFrom (fresh : Nat → String) :
    ∀ (ts : List RawTab) (i : Nat) (t2 : RawTab),
      t2 ∈ normalizeTabsFrom fresh i ts → ∃ fid t, t2 = normalizeTab fid t := by
  intro ts
  induction ts with
  | nil => intro i t2 h; simp [normalizeTabsFrom] at h
  | cons t ts ih =>
    intro i t2 h
    simp only [normalizeTabsFrom, List.mem_cons] at h
    rcases h with h | h
    · exact ⟨fresh i, t, h⟩
    · exact ih (i + 1) t2 h

/-- C5. Operation normalization of a loaded tab: legacy `"copy"` maps to
`copy_replace`, legacy `"move"` maps to `move_replace`, a missing value
maps to `copy_replace`, any other value outside the four enumerated modes
maps to `copy_replace`, each enumerated value is unchanged, and after load
the stored operation of every tab is one of the four enumerated values. -/
theorem claim_C5_operation_normalization (fid : String) (t : RawTab) :
    (t.operation = some "copy" →
      (normalizeTab fid t).operation = some OP_COPY_REPLACE) ∧
    (t.operation = some "move" →
      (normalizeTab fid t).operation = some OP_MOVE_REPLACE) ∧
    (t.operation = none →
      (normalizeTab fid t).operation = some OP_COPY_REPLACE) ∧
    (∀ op, t.operation = some op → op ≠ "copy" → op ≠ "move" →
      isEnumMode op = false →
      (normalizeTab fid t).operation = some OP_COPY_REPLACE) ∧
    (∀ op, t.operation = some op → isEnumMode op = true →
      (normalizeTab fid t).operation = some op) ∧
    (∃ op, (normalizeTab fid t).operation = some op ∧ isEnumMode op = true) ∧
    (∀ (fresh dflt : Nat → String) (ts : List RawTab) (t2 : RawTab),
      t2 ∈ (ConfigManager.load fresh dflt (FileState.doc ts)).tabs →
      ∃ op, t2.operation = some op ∧ isEnumMode op = true) := by
  refine ⟨?_, ?_, ?_, ?_, ?_, ?_, ?_⟩
  · intro h; simp [normalizeTab, h, normalizeOp]
  · intro h; simp [normalizeTab, h, normalizeOp]
  · intro h; simp [normalizeTab, h, normalizeOp, OP_COPY_REPLACE]
  · intro op h hc hm he
    simp [normalizeTab, h, normalizeOp, hc, hm, he]
  · intro op h he
    simp [normalizeTab, h, normalizeOp_enum op he]
  · exact ⟨normalizeOp (t.operation.getD OP_COPY_REPLACE), rfl,
      normalizeOp_isEnum _⟩
  · intro fresh dflt ts t2 h2
    obtain ⟨fid2, t3, rfl⟩ :=
      mem_normalizeTabsFrom fresh ts 0 t2 h2
    exact ⟨normalizeOp (t3.operation.getD OP_COPY_REPLACE), rfl,
      normalizeOp_isEnum _⟩

/-- Witness for C5: legacy `"move"` becomes `move_replace`, an
unrecognized `"shuffle"` becomes `copy_replace`. -/
theorem claim_C5_witness :
    (normalizeTab "fid" (RawTab.mk none none none (some "move") none)).operation =
      some OP_MOVE_REPLACE ∧
    (normalizeTab "fid" (RawTab.mk none none none (some "shuffle") none)).operation =
      some OP_COPY_REPLACE :=
  ⟨(claim_C5_operation_normalization "fid"
      (RawTab.mk none none none (some "move") none)).2.1 rfl,
    (claim_C5_operation_normalization "fid"
      (RawTab.mk none none none (some "shuffle") none)).2.2.2.1 "shuffle" rfl
      (by decide) (by decide) (by decide)⟩

/-- C6. `ConfigManager.load` is total (it never raises: every failure path
returns a value), and on an absent, unreadable or structurally invalid
file it returns the freshly generated default config: exactly 5 tabs named
`L1`..`L5`, each with empty destination path, mode `copy_replace` and
empty history. -/
theorem claim_C6_load_failures_degrade_to_defaults (fresh dflt : Nat → String)
    (file : FileState)
    (h : file = FileState.absent ∨ file = FileState.unreadable ∨
      file = FileState.invalidTabs) :
    ConfigManager.load fresh dflt file = generate_default_config dflt ∧
    (generate_default_config dflt).tabs.length = 5 ∧
    (generate_default_config dflt).tabs.map RawTab.name =
      [some "L1", some "L2", some "L3", some "L4", some "L5"] ∧
    (∀ t ∈ (generate_default_config dflt).tabs,
      t.path = some "" ∧ t.operation = some OP_COPY_REPLACE ∧
        t.history = some ([] : List HistoryEntry)) := by
  refine ⟨?_, rfl, rfl, ?_⟩
  · rcases h with h | h | h <;> subst h <;> rfl
  · intro t ht
    simp only [generate_default_config, List.mem_map] at ht
    obtain ⟨i, _, rfl⟩ := ht
    exact ⟨rfl, rfl, rfl⟩

/-- Witness for C6: an absent file with concrete identifier generators. -/
theorem claim_C6_witness :
    ConfigManager.load (fun i => toString i) (fun i => toString (i + 10))
        FileState.absent =
      generate_default_config (fun i => toString (i + 10)) ∧
    (generate_default_config (fun i : Nat => toString (i + 10))).tabs.length = 5 :=
  ⟨(claim_C6_load_failures_degrade_to_defaults (fun i => toString i)
      (fun i => toString (i + 10)) FileState.absent (Or.inl rfl)).1,
    (claim_C6_load_failures_degrade_to_defaults (fun i => toString i)
      (fun i => toString (i + 10)) FileState.absent (Or.inl rfl)).2.1⟩

/-- C10. Load-time and import-time normalization never overwrite fields
that are already present: a tab with all of id, name, path, history
present and an enumerated operation is left identical by `normalizeTab`,
so a document of such tabs loads to itself and imports (Replace or Merge)
without change. -/
theorem claim_C10_normalization_preserves_present_fields
    (fresh dflt : Nat → String) (cur : Config) (ts : List RawTab)
    (h : ∀ t ∈ ts, WellFormedTab t) :
    (∀ (fid : String) (t : RawTab), t ∈ ts → normalizeTab fid t = t) ∧
    ConfigManager.load fresh dflt (FileState.doc ts) = Config.mk ts ∧
    import_config fresh cur (FileState.doc ts) ImportChoice.replaceTabs =
      Config.mk ts ∧
    import_config fresh cur (FileState.doc ts) ImportChoice.mergeTabs =
      Config.mk (cur.tabs ++ ts) := by
  refine ⟨?_, ?_, ?_, ?_⟩
  · intro fid t ht; exact normalizeTab_wellFormed fid t (h t ht)
  · show Config.mk (normalizeTabsFrom fresh 0 ts) = Config.mk ts
    rw [normalizeTabsFrom_wellFormed fresh ts h 0]
  · show Config.mk (normalizeTabsFrom fresh 0 ts) = Config.mk ts
    rw [normalizeTabsFrom_wellFormed fresh ts h 0]
  · show Config.mk (cur.tabs ++ normalizeTabsFrom fresh 0 ts) = _
    rw [normalizeTabsFrom_wellFormed fresh ts h 0]

/-- Witness for C10: a fully populated tab with an enumerated mode is
loaded unchanged. -/
theorem claim_C10_witness :
    (∀ t ∈ [RawTab.mk (some "id1") (some "Docs") (some "/home/u/docs")
        (some "move_new") (some [])], WellFormedTab t) ∧
    ConfigManager.load (fun _ => "f") (fun _ => "g")
        (FileState.doc [RawTab.mk (some "id1") (some "Docs")
          (some "/home/u/docs") (some "move_new") (some [])]) =
      Config.mk [RawTab.mk (some "id1") (some "Docs") (some "/home/u/docs")
        (some "move_new") (some [])] :=
  ⟨by decide,
    (claim_C10_normalization_preserves_present_fields (fun _ => "f")
      (fun _ => "g") (Config.mk [])
      [RawTab.mk (some "id1") (some "Docs") (some "/home/u/docs")
        (some "move_new") (some [])] (by decide)).2.1⟩

/-- C8. Exporting the live config and importing the exported document with
the Replace outcome reproduces the config field-for-field: import-time
normalization is the identity on a document produced by export, because
every tab of the live config has all keys present and an enumerated
operation. -/
theorem claim_C8_export_import_replace_roundtrip (fresh : Nat → String)
    (cur c : Config) (h : ∀ t ∈ c.tabs, WellFormedTab t) :
    import_config fresh cur (export_config c) ImportChoice.replaceTabs = c := by
  rcases c with ⟨ts⟩
  show Config.mk (normalizeTabsFrom fresh 0 ts) = Config.mk ts
  rw [normalizeTabsFrom_wellFormed fresh ts h 0]

/-- Witness for C8: a two-tab live config round-trips through export and
Replace-import. -/
theorem claim_C8_witness :
    import_config (fun i => toString i)
        (Config.mk [RawTab.mk (some "x") (some "Old") (some "") (some "copy_new") (some [])])
        (export_config (Config.mk
          [RawTab.mk (some "a") (some "L1") (some "/top") (some "copy_replace") (some []),
            RawTab.mk (some "b") (some "L2") (some "/bot") (some "move_replace")
              (some [HistoryEntry.mk 3 "move_replace" "/x" "/bot/x" "success"])]))
        ImportChoice.replaceTabs =
      Config.mk
        [RawTab.mk (some "a") (some "L1") (some "/top") (some "copy_replace") (some []),
          RawTab.mk (some "b") (some "L2") (some "/bot") (some "move_replace")
            (some [HistoryEntry.mk 3 "move_replace" "/x" "/bot/x" "success"])] :=
  claim_C8_export_import_replace_roundtrip (fun i => toString i)
    (Config.mk [RawTab.mk (some "x") (some "Old") (some "") (some "copy_new") (some [])])
    (Config.mk
      [RawTab.mk (some "a") (some "L1") (some "/top") (some "copy_replace") (some []),
        RawTab.mk (some "b") (some "L2") (some "/bot") (some "move_replace")
          (some [HistoryEntry.mk 3 "move_replace" "/x" "/bot/x" "success"])])
    (by decide)

end FileTeleporter
